import Mathlib

/-
Verification development for the serpapi-mcp server (src/server.py).
The middleware `ApiKeyMiddleware.dispatch` (server.py lines 24-57) and the
tool handler `search` (server.py lines 60-150) are embedded as pure
functions over explicit request data; external effects (the HTTP request
context and the upstream SerpApi call) are passed in as explicit values.
-/

namespace SerpapiMcp

/-- JSON values, the shape of upstream responses and of request bodies.
Numbers are modelled as integers; the claims under study do not involve
floating point payloads. -/
inductive Json where
  | null
  | bool (b : Bool)
  | num (n : Int)
  | str (s : String)
  | arr (xs : List Json)
  | obj (fields : List (String × Json))

/-- Indentation padding used by the JSON serializer. -/
def pad (n : Nat) : String := String.mk (List.replicate n ' ')

/-- Escaping of a single character inside a JSON string, following
json.dumps with ensure_ascii=False: non-ASCII characters stay literal. -/
def escapeChar (c : Char) : String :=
  if c = '"' then "\\\""
  else if c = '\\' then "\\\\"
  else if c = '\n' then "\\n"
  else if c = '\t' then "\\t"
  else if c = '\r' then "\\r"
  else String.mk [c]

/-- Serialization of a JSON string literal. -/
def quoteStr (s : String) : String :=
  "\"" ++ String.join (s.toList.map escapeChar) ++ "\""

mutual

/-- Model of json.dumps(v, indent=2, ensure_ascii=False) at indentation
level `ind` (server.py line 138). -/
def dumpsVal (ind : Nat) : Json → String
  | .null => "null"
  | .bool true => "true"
  | .bool false => "false"
  | .num n => toString n
  | .str s => quoteStr s
  | .arr [] => "[]"
  | .arr (x :: xs) =>
      "[\n" ++ String.intercalate ",\n" (dumpsItems (ind + 2) (x :: xs)) ++ "\n" ++ pad ind ++ "]"
  | .obj [] => "\x7b\x7d"
  | .obj (f :: fs) =>
      "\x7b\n" ++ String.intercalate ",\n" (dumpsFields (ind + 2) (f :: fs)) ++ "\n" ++ pad ind ++ "\x7d"

/-- Serialized array elements, one line each. -/
def dumpsItems (ind : Nat) : List Json → List String
  | [] => []
  | x :: xs => (pad ind ++ dumpsVal ind x) :: dumpsItems ind xs

/-- Serialized object entries, one line each. -/
def dumpsFields (ind : Nat) : List (String × Json) → List String
  | [] => []
  | (k, v) :: fs => (pad ind ++ quoteStr k ++ ": " ++ dumpsVal ind v) :: dumpsFields ind fs

end

/-- Top-level serialization of the response dict, as in
json.dumps(data, indent=2, ensure_ascii=False) (server.py line 138). -/
def jsonDumps (fields : List (String × Json)) : String := dumpsVal 0 (Json.obj fields)

/-- Model of the Python str.split(sep) semantics on character lists: every
occurrence of the separator splits, empty chunks are kept, and the empty
input yields one empty chunk. -/
def pySplit (sep : Char) : List Char → List (List Char)
  | [] => [[]]
  | c :: cs =>
    if c = sep then [] :: pySplit sep cs
    else
      match pySplit sep cs with
      | [] => [[c]]
      | p :: ps => (c :: p) :: ps

/-- Characters after the first space, modelling auth.split(" ", 1)[1]
(server.py line 34); the caller guards with startswith("Bearer "), which
guarantees that a space exists. -/
def afterFirstSpace : List Char → List Char
  | [] => []
  | c :: cs => if c = ' ' then cs else afterFirstSpace cs

/-- Boolean test that `p` is an initial run of `l`, modelling the Python
str.startswith check (server.py line 33). -/
def prefixCheck : List Char → List Char → Bool
  | [], _ => true
  | _ :: _, [] => false
  | p :: ps, c :: cs => p = c && prefixCheck ps cs

/-- Surrounding-whitespace removal on character lists, modelling the
Python str.strip() call (server.py line 34). -/
def trimChars (l : List Char) : List Char :=
  (l.dropWhile (fun c => c == ' ' || c == '\t' || c == '\n' || c == '\r')).rdropWhile
    (fun c => c == ' ' || c == '\t' || c == '\n' || c == '\r')

/-- String form of `trimChars`, modelling Python str.strip(). -/
def pyStrip (s : String) : String := String.mk (trimChars s.toList)

/-- Leading and trailing slash removal, modelling original_path.strip("/")
(server.py line 37). -/
def stripSlashes (l : List Char) : List Char :=
  (l.dropWhile (fun c => c == '/')).rdropWhile (fun c => c == '/')

/-- Result of the middleware on one inbound request (server.py lines
25-57): pass the healthcheck through, reject with a status and a JSON
body, or forward downstream with the resolved key and effective path. -/
inductive MwResult where
  | health
  | reject (status : Nat) (body : List (String × Json))
  | next (key : String) (path : String)

/-- Exact error message of the 401 response (server.py line 50). -/
def missingKeyMsg : String :=
  "Missing API key. Use path format /\x7bAPI_KEY\x7d/mcp or Authorization: Bearer \x7bAPI_KEY\x7d header"

/-- Key taken from the Authorization header (server.py lines 32-34):
empty result stands for the Python None / empty-string falsy cases. -/
def headerKey : Option String → String
  | none => ""
  | some auth =>
    if prefixCheck "Bearer ".toList auth.toList then
      pyStrip (String.mk (afterFirstSpace auth.toList))
    else ""

/-- Path segments as computed by the middleware (server.py line 37):
original_path.strip("/").split("/") if original_path else []. -/
def pathParts (path : String) : List String :=
  if path = "" then [] else (pySplit '/' (stripSlashes path.toList)).map String.mk

/-- Model of ApiKeyMiddleware.dispatch (server.py lines 25-57). The
straight-line Python (assign api_key from header, optionally reassign from
the path and rewrite, then one falsiness check) is unfolded per branch. -/
def dispatch (path : String) (auth : Option String) : MwResult :=
  if path = "/healthcheck" then MwResult.health
  else if headerKey auth = "" ∧ 2 ≤ (pathParts path).length ∧ (pathParts path).getD 1 "" = "mcp" then
    (if (pathParts path).getD 0 "" = "" then MwResult.reject 401 [("error", Json.str missingKeyMsg)]
     else
       MwResult.next ((pathParts path).getD 0 "")
         ("/" ++ String.intercalate "/" ((pathParts path).drop 1)))
  else if headerKey auth = "" then MwResult.reject 401 [("error", Json.str missingKeyMsg)]
  else MwResult.next (headerKey auth) path

/-- Segments of a path in the sense of the specification text: the
non-empty chunks obtained by splitting the request path on slashes. -/
def specSegments (path : String) : List String :=
  ((pySplit '/' path.toList).filter (fun s => !s.isEmpty)).map String.mk

/-- State of the per-request context as seen by the tool (server.py lines
109-113): no active HTTP request (get_http_request raises), a request
whose state has no api_key attribute (the attribute access raises), or a
stored api_key value. -/
inductive Ctx where
  | noHttp
  | httpNoKey
  | httpKey (k : String)

/-- Outcome of the upstream serpapi.search call (server.py lines 122,
140, 149): a response dict, an HTTPError with the given str(e), or any
other exception with the given str(e). -/
inductive Upstream where
  | ok (data : List (String × Json))
  | httpError (msg : String)
  | exn (msg : String)

/-- What the tool call produces at its boundary: a returned string, or an
uncaught exception propagating to the caller. -/
inductive ToolResult where
  | str (s : String)
  | raised

/-- One run of the tool: the boundary result together with the parameter
dict sent upstream (none when no upstream call was made). -/
structure SearchRun where
  result : ToolResult
  sent : Option (List (String × Json))

/-- Validation error string for a bad mode (server.py line 107). -/
def invalidModeMsg : String := "Error: Invalid mode. Must be 'complete' or 'compact'"

/-- Error string of the defensive context check (server.py line 113). -/
def noKeyMsg : String := "Error: Unable to access API key from request context"

/-- Rate limit error string (server.py line 142). -/
def rateLimitMsg : String := "Error: Rate limit exceeded. Please try again later."

/-- Invalid key error string (server.py line 144). -/
def invalidKeyMsg : String :=
  "Error: Invalid SerpApi API key. Check your API key in the path or Authorization header."

/-- Forbidden key error string (server.py line 146). -/
def forbiddenMsg : String :=
  "Error: SerpApi API key forbidden. Verify your subscription and key validity."

/-- Keys removed in compact mode (server.py lines 127-133). -/
def fieldsToRemove : List String :=
  ["search_metadata", "search_parameters", "search_information", "pagination",
    "serpapi_pagination"]

/-- Model of data.pop(field, None) on a dict rendered as an association
list with distinct keys (server.py line 135). -/
def popKey (k : String) (data : List (String × Json)) : List (String × Json) :=
  data.filter (fun kv => kv.1 != k)

/-- The compact-mode removal loop (server.py lines 134-135). -/
def removeFields (data : List (String × Json)) : List (String × Json) :=
  fieldsToRemove.foldl (fun d f => popKey f d) data

/-- One insertion into a dict literal: an existing key is overwritten in
place, a new key is appended, as in Python dict construction. -/
def dictInsert (d : List (String × Json)) (k : String) (v : Json) : List (String × Json) :=
  if d.any (fun kv => kv.1 == k) then d.map (fun kv => if kv.1 == k then (k, v) else kv)
  else d ++ [(k, v)]

/-- Model of the dict literal splat, as in the search_params assembly
(server.py lines 115-119): entries of `ps` merged left to right over `d`. -/
def dictMerge (d : List (String × Json)) (ps : List (String × Json)) : List (String × Json) :=
  ps.foldl (fun acc kv => dictInsert acc kv.1 kv.2) d

/-- Occurrence test of `pat` inside a character list: true when `pat` is
a contiguous run starting at some position. -/
def substrCheck (pat : List Char) : List Char → Bool
  | [] => pat.isEmpty
  | c :: cs => prefixCheck pat (c :: cs) || substrCheck pat cs

/-- Substring test, modelling the Python `in` operator on strings
(server.py lines 141, 143, 145). -/
def strContains (hay pat : String) : Bool := substrCheck pat.toList hay.toList

/-- Defaults merged under the caller parameters (server.py lines
115-119). -/
def defaultSearchParams (apiKey : String) : List (String × Json) :=
  [("api_key", Json.str apiKey), ("engine", Json.str "google_light")]

/-- Classification of an upstream HTTPError by its description
(server.py lines 140-148). -/
def classifyHttpError (msg : String) : String :=
  if strContains msg "429" then rateLimitMsg
  else if strContains msg "401" then invalidKeyMsg
  else if strContains msg "403" then forbiddenMsg
  else "Error: " ++ msg

/-- Body of the tool once the key is in hand (server.py lines 115-150):
parameter assembly, the upstream call, mode-specific shaping on success,
and the exception handlers. -/
def searchBody (k : String) (params : List (String × Json)) (mode : String) (up : Upstream) :
    SearchRun :=
  let searchParams := dictMerge (defaultSearchParams k) params
  match up with
  | Upstream.ok data =>
    let shaped := if mode = "compact" then removeFields data else data
    ⟨ToolResult.str (jsonDumps shaped), some searchParams⟩
  | Upstream.httpError msg => ⟨ToolResult.str (classifyHttpError msg), some searchParams⟩
  | Upstream.exn msg => ⟨ToolResult.str ("Error: " ++ msg), some searchParams⟩

/-- Model of the search tool (server.py lines 104-150). The request
context and the upstream outcome are explicit inputs; the run records the
boundary result and the parameters sent upstream, if any. -/
def search (ctx : Ctx) (params : List (String × Json)) (mode : String) (up : Upstream) :
    SearchRun :=
  if mode ≠ "complete" ∧ mode ≠ "compact" then ⟨ToolResult.str invalidModeMsg, none⟩
  else
    match ctx with
    | Ctx.noHttp => ⟨ToolResult.raised, none⟩
    | Ctx.httpNoKey => ⟨ToolResult.raised, none⟩
    | Ctx.httpKey k =>
      if k = "" then ⟨ToolResult.str noKeyMsg, none⟩ else searchBody k params mode up

theorem pySplit_ne_nil (sep : Char) (l : List Char) : pySplit sep l ≠ [] := by
  cases l with
  | nil => simp [pySplit]
  | cons c cs =>
    simp only [pySplit]
    split
    · simp
    · split <;> simp

theorem pySplit_cons_of_ne (sep c : Char) (cs : List Char) (h : ¬ c = sep) :
    ∃ p ps, pySplit sep (c :: cs) = (c :: p) :: ps := by
  rcases hps : pySplit sep cs with _ | ⟨p, ps⟩
  · exact absurd hps (pySplit_ne_nil sep cs)
  · exact ⟨p, ps, by simp only [pySplit, if_neg h, hps]⟩

theorem prefixCheck_append (p t : List Char) : prefixCheck p (p ++ t) = true := by
  induction p with
  | nil => rfl
  | cons c cs ih => simp [prefixCheck, ih]

theorem substrCheck_append_left (pat pre : List Char) :
    substrCheck pat (pre ++ pat) = true := by
  induction pre with
  | nil =>
    cases pat with
    | nil => rfl
    | cons c cs =>
      have h := prefixCheck_append (c :: cs) []
      rw [List.append_nil] at h
      simp [substrCheck, h]
  | cons a t ih => simp [substrCheck, ih]

theorem afterFirstSpace_pre (l₁ l₂ : List Char) (h : ∀ c ∈ l₁, ¬ c = ' ') :
    afterFirstSpace (l₁ ++ ' ' :: l₂) = l₂ := by
  induction l₁ with
  | nil => simp [afterFirstSpace]
  | cons c cs ih =>
    have hc : ¬ c = ' ' := h c (List.mem_cons_self c cs)
    simp only [List.cons_append, afterFirstSpace, if_neg hc]
    exact ih (fun x hx => h x (List.mem_cons_of_mem c hx))

theorem pySplit_cons_self (sep : Char) (cs : List Char) :
    pySplit sep (sep :: cs) = [] :: pySplit sep cs := by
  simp [pySplit]

theorem pySplit_cons_ne_eq (sep c : Char) (cs : List Char) (h : ¬ c = sep) :
    pySplit sep (c :: cs)
      = match pySplit sep cs with
        | [] => [[c]]
        | p :: ps => (c :: p) :: ps := by
  simp [pySplit, h]

theorem headerKey_bearer (rest : String) :
    headerKey (some ("Bearer " ++ rest)) = pyStrip rest := by
  have hdata : ("Bearer " ++ rest).toList = "Bearer ".toList ++ rest.toList :=
    String.data_append _ _
  show (if prefixCheck "Bearer ".toList ("Bearer " ++ rest).toList = true
      then pyStrip (String.mk (afterFirstSpace ("Bearer " ++ rest).toList)) else "")
    = pyStrip rest
  rw [if_pos (by rw [hdata]; exact prefixCheck_append _ _)]
  rw [hdata]
  have hsp : "Bearer ".toList ++ rest.toList = ['B','e','a','r','e','r'] ++ (' ' :: rest.toList) :=
    rfl
  rw [hsp, afterFirstSpace_pre _ _ (by decide)]
  rfl

theorem dropWhile_head_false (p : Char → Bool) (l : List Char) (c : Char) (r : List Char)
    (h : l.dropWhile p = c :: r) : p c = false := by
  induction l with
  | nil => simp [List.dropWhile] at h
  | cons a t ih =>
    rw [List.dropWhile_cons] at h
    by_cases ha : p a = true
    · rw [if_pos ha] at h; exact ih h
    · rw [if_neg ha] at h
      cases h
      simpa using ha

theorem rdropWhile_append_rtakeWhile (p : Char → Bool) (l : List Char) :
    l.rdropWhile p ++ l.rtakeWhile p = l := by
  simp only [List.rdropWhile, List.rtakeWhile]
  rw [← List.reverse_append, List.takeWhile_append_dropWhile, List.reverse_reverse]

theorem exists_rdropWhile_replicate (sep : Char) (l : List Char) :
    ∃ n, l = l.rdropWhile (fun c => c == sep) ++ List.replicate n sep := by
  refine ⟨(l.rtakeWhile (fun c => c == sep)).length, ?_⟩
  have h1 : l.rtakeWhile (fun c => c == sep)
      = List.replicate (l.rtakeWhile (fun c => c == sep)).length sep :=
    List.eq_replicate_of_mem (fun b hb => by
      have hb2 := List.mem_rtakeWhile_imp hb
      simpa using hb2)
  conv_lhs => rw [← rdropWhile_append_rtakeWhile (fun c => c == sep) l]
  rw [← h1]

theorem filter_pySplit_dropWhile (sep : Char) (l : List Char) :
    (pySplit sep (l.dropWhile (fun c => c == sep))).filter (fun s => !s.isEmpty)
      = (pySplit sep l).filter (fun s => !s.isEmpty) := by
  induction l with
  | nil => rfl
  | cons c cs ih =>
    by_cases hc : c = sep
    · subst hc
      rw [List.dropWhile_cons, if_pos (by simp), ih]
      simp [pySplit, List.filter_cons]
    · rw [List.dropWhile_cons, if_neg (by simpa using hc)]

theorem pySplit_append_sep (sep : Char) (l : List Char) :
    pySplit sep (l ++ [sep]) = pySplit sep l ++ [[]] := by
  induction l with
  | nil => simp [pySplit]
  | cons c cs ih =>
    by_cases hc : c = sep
    · subst hc
      rw [List.cons_append, pySplit_cons_self, ih, pySplit_cons_self]
      rfl
    · rcases hps : pySplit sep cs with _ | ⟨p, ps⟩
      · exact absurd hps (pySplit_ne_nil sep cs)
      · rw [List.cons_append, pySplit_cons_ne_eq sep c _ hc, pySplit_cons_ne_eq sep c _ hc,
          ih, hps]
        rfl

theorem filter_pySplit_append_replicate (sep : Char) (l : List Char) (n : Nat) :
    (pySplit sep (l ++ List.replicate n sep)).filter (fun s => !s.isEmpty)
      = (pySplit sep l).filter (fun s => !s.isEmpty) := by
  induction n with
  | zero => simp
  | succ m ih =>
    rw [List.replicate_succ', ← List.append_assoc, pySplit_append_sep, List.filter_append]
    simpa using ih

theorem filter_pySplit_stripSlashes (l : List Char) :
    (pySplit '/' (stripSlashes l)).filter (fun s => !s.isEmpty)
      = (pySplit '/' l).filter (fun s => !s.isEmpty) := by
  obtain ⟨n, hn⟩ := exists_rdropWhile_replicate '/' (l.dropWhile (fun c => c == '/'))
  have h1 : (pySplit '/' (l.dropWhile (fun c => c == '/'))).filter (fun s => !s.isEmpty)
      = (pySplit '/' (stripSlashes l)).filter (fun s => !s.isEmpty) := by
    conv_lhs => rw [hn]
    rw [filter_pySplit_append_replicate]
    rfl
  rw [← h1, filter_pySplit_dropWhile]

theorem stripSlashes_head_ne (l : List Char) (c : Char) (r : List Char)
    (h : stripSlashes l = c :: r) : ¬ c = '/' := by
  have hpre : stripSlashes l <+: l.dropWhile (fun c => c == '/') := List.rdropWhile_prefix _ _
  rw [h] at hpre
  obtain ⟨t, ht⟩ := hpre
  have hd : l.dropWhile (fun c => c == '/') = c :: (r ++ t) := by rw [← ht]; rfl
  have hf := dropWhile_head_false _ _ _ _ hd
  simpa using hf

theorem pathParts_struct (path : String) (h2 : 2 ≤ (pathParts path).length) :
    ∃ c p0 p1 rest, pySplit '/' (stripSlashes path.toList) = (c :: p0) :: p1 :: rest ∧
      ¬ c = '/' ∧ pathParts path = ((c :: p0) :: p1 :: rest).map String.mk := by
  by_cases hp : path = ""
  · rw [hp] at h2; simp [pathParts] at h2
  · have hparts : pathParts path = (pySplit '/' (stripSlashes path.toList)).map String.mk := by
      unfold pathParts; rw [if_neg hp]
    rcases hq : pySplit '/' (stripSlashes path.toList) with _ | ⟨q0, _ | ⟨q1, qs⟩⟩
    · exact absurd hq (pySplit_ne_nil _ _)
    · rw [hparts, hq] at h2; simp at h2
    · rcases hstr : stripSlashes path.toList with _ | ⟨c, cs⟩
      · rw [hstr] at hq
        simp only [pySplit] at hq
        cases hq
      · have hc : ¬ c = '/' := stripSlashes_head_ne _ _ _ hstr
        obtain ⟨p, ps, hcons⟩ := pySplit_cons_of_ne '/' c cs hc
        rw [hstr] at hq
        rw [hcons] at hq
        injection hq with hq0 hq1
        refine ⟨c, p, q1, qs, ?_, hc, ?_⟩
        · rw [← hq0]
        · rw [hparts, hstr, hcons, hq1]

theorem pathParts_first_ne_empty (path : String) (h2 : 2 ≤ (pathParts path).length) :
    ¬ (pathParts path).getD 0 "" = "" := by
  obtain ⟨c, p0, p1, rest, hq, hc, hp⟩ := pathParts_struct path h2
  rw [hp]
  intro h
  simp only [List.map_cons, List.getD_cons_zero] at h
  have hdat := congrArg String.data h
  simp at hdat

theorem codeCond_specCond (path : String) (h2 : 2 ≤ (pathParts path).length)
    (hm : (pathParts path).getD 1 "" = "mcp") :
    2 ≤ (specSegments path).length ∧ (specSegments path).getD 1 "" = "mcp" := by
  obtain ⟨c, p0, p1, rest, hq, hc, hp⟩ := pathParts_struct path h2
  have hm1 : String.mk p1 = "mcp" := by
    rw [hp] at hm
    simpa using hm
  have hp1 : p1 = "mcp".toList := by
    have hdat := congrArg String.data hm1
    simpa using hdat
  unfold specSegments
  rw [← filter_pySplit_stripSlashes, hq]
  rw [List.filter_cons, List.filter_cons]
  rw [if_pos (by simp), if_pos (by rw [hp1]; decide)]
  refine ⟨by simp, ?_⟩
  simp [hm1]

theorem foldl_popKey_eq_filter (R : List String) (data : List (String × Json)) :
    R.foldl (fun d f => popKey f d) data = data.filter (fun kv => !(R.contains kv.1)) := by
  induction R generalizing data with
  | nil => simp
  | cons f R ih =>
    rw [List.foldl_cons, ih (popKey f data)]
    unfold popKey
    rw [List.filter_filter]
    congr 1
    funext kv
    by_cases hkf : kv.1 = f <;> simp [hkf]

theorem removeFields_eq_filter (data : List (String × Json)) :
    removeFields data = data.filter (fun kv => !(fieldsToRemove.contains kv.1)) :=
  foldl_popKey_eq_filter fieldsToRemove data

theorem lookup_map_overwrite_ne (d : List (String × Json)) (k a : String) (v : Json)
    (h : ¬ k = a) :
    (d.map (fun kv => if kv.1 == k then (k, v) else kv)).lookup a = d.lookup a := by
  induction d with
  | nil => rfl
  | cons b t ih =>
    obtain ⟨b1, b2⟩ := b
    rw [List.map_cons]
    by_cases hb : b1 = k
    · rw [if_pos (by simp [hb])]
      have hka : (a == k) = false := by simp [Ne.symm h]
      have hba : (a == b1) = false := by simp [hb, Ne.symm h]
      simp only [List.lookup, hka, hba]
      simpa using ih
    · rw [if_neg (by simp [hb])]
      cases hba : a == b1 with
      | true => simp [List.lookup, hba]
      | false =>
        simp only [List.lookup, hba]
        simpa using ih

theorem lookup_append_single_ne (d : List (String × Json)) (k a : String) (v : Json)
    (h : ¬ k = a) : (d ++ [(k, v)]).lookup a = d.lookup a := by
  induction d with
  | nil =>
    have hak : (a == k) = false := by simp [Ne.symm h]
    simp [List.lookup, hak]
  | cons b t ih =>
    obtain ⟨b1, b2⟩ := b
    rw [List.cons_append]
    cases hba : a == b1 with
    | true => simp [List.lookup, hba]
    | false => simp [List.lookup, hba, ih]

theorem lookup_dictInsert_ne (d : List (String × Json)) (k a : String) (v : Json)
    (h : ¬ k = a) : (dictInsert d k v).lookup a = d.lookup a := by
  unfold dictInsert
  split
  · exact lookup_map_overwrite_ne d k a v h
  · exact lookup_append_single_ne d k a v h

theorem lookup_dictMerge_ne (ps : List (String × Json)) (d : List (String × Json)) (a : String)
    (h : ∀ kv ∈ ps, ¬ kv.1 = a) : (dictMerge d ps).lookup a = d.lookup a := by
  induction ps generalizing d with
  | nil => rfl
  | cons kv t ih =>
    have hstep : dictMerge d (kv :: t) = dictMerge (dictInsert d kv.1 kv.2) t := rfl
    rw [hstep, ih _ (fun x hx => h x (List.mem_cons_of_mem kv hx)),
      lookup_dictInsert_ne d kv.1 a kv.2 (h kv (List.mem_cons_self kv t))]

theorem search_httpKey_eq (k : String) (params : List (String × Json)) (mode : String)
    (up : Upstream) (hmode : ¬ (mode ≠ "complete" ∧ mode ≠ "compact")) :
    search (Ctx.httpKey k) params mode up
      = if k = "" then ⟨ToolResult.str noKeyMsg, none⟩ else searchBody k params mode up := by
  unfold search
  rw [if_neg hmode]

theorem search_invalid_mode_eq (ctx : Ctx) (params : List (String × Json)) (mode : String)
    (up : Upstream) (hmode : mode ≠ "complete" ∧ mode ≠ "compact") :
    search ctx params mode up = ⟨ToolResult.str invalidModeMsg, none⟩ := by
  unfold search
  rw [if_pos hmode]

/-- C1 (counterexample): at path "/k//mcp" with no Authorization header,
splitting the request path into non-empty segments gives ["k", "mcp"] —
at least two segments with the second equal to "mcp" — so the claim
predicts forwarding with key "k" and path "/mcp"; the middleware instead
returns the 401 rejection, because the code splits the stripped path on
every slash keeping empty chunks, and the empty chunk before "mcp"
defeats the check. -/
theorem C1_counterexample :
    2 ≤ (specSegments "/k//mcp").length ∧ (specSegments "/k//mcp").getD 1 "" = "mcp" ∧
      headerKey none = "" ∧ ¬ ("/k//mcp" : String) = "/healthcheck" ∧
      dispatch "/k//mcp" none = MwResult.reject 401 [("error", Json.str missingKeyMsg)] ∧
      ¬ dispatch "/k//mcp" none = MwResult.next "k" "/mcp" := by
  refine ⟨by decide, by decide, rfl, by decide, rfl, ?_⟩
  intro heq
  rw [show dispatch "/k//mcp" none = MwResult.reject 401 [("error", Json.str missingKeyMsg)]
    from rfl] at heq
  exact MwResult.noConfusion heq

/-- C1 (amended): for an inbound request that is not the healthcheck
path and whose Authorization header yields no key, if splitting the path
as the code does — strip leading and trailing slashes, then split on
every slash keeping empty chunks — gives at least two segments with the
second equal to "mcp", then the middleware forwards the request with the
first segment as the resolved key, and the forwarded path is a slash
followed by the remaining segments joined by slashes, so all segments
beyond the second are preserved verbatim. -/
theorem C1_path_key (path : String) (auth : Option String)
    (h0 : ¬ path = "/healthcheck") (hh : headerKey auth = "")
    (h2 : 2 ≤ (pathParts path).length) (hm : (pathParts path).getD 1 "" = "mcp") :
    dispatch path auth
      = MwResult.next ((pathParts path).getD 0 "")
          ("/" ++ String.intercalate "/" ((pathParts path).drop 1)) := by
  unfold dispatch
  rw [if_neg h0, if_pos ⟨hh, h2, hm⟩, if_neg (pathParts_first_ne_empty path h2)]

/-- C1 (witness): the amended theorem evaluated at the spec example
"/XYZ/mcp/anything" with no Authorization header. -/
theorem C1_witness :
    dispatch "/XYZ/mcp/anything" none = MwResult.next "XYZ" "/mcp/anything" := by
  have h := C1_path_key "/XYZ/mcp/anything" none (by decide) rfl (by decide) (by decide)
  rw [h]
  rfl

/-- C2: an inbound request that is not the healthcheck path, carrying an
Authorization header whose value is the literal prefix "Bearer " followed
by a remainder that is non-empty after trimming surrounding whitespace,
resolves exactly that trimmed remainder as the API key regardless of the
shape of the path, and the request path is left unmodified. -/
theorem C2_bearer_header (path rest : String) (h0 : ¬ path = "/healthcheck")
    (hr : ¬ pyStrip rest = "") :
    dispatch path (some ("Bearer " ++ rest)) = MwResult.next (pyStrip rest) path := by
  have hk := headerKey_bearer rest
  have hc1 : ¬ (headerKey (some ("Bearer " ++ rest)) = "" ∧ 2 ≤ (pathParts path).length ∧
      (pathParts path).getD 1 "" = "mcp") := by
    rintro ⟨h1, -⟩
    rw [hk] at h1
    exact hr h1
  have hc2 : ¬ headerKey (some ("Bearer " ++ rest)) = "" := by
    intro h1
    rw [hk] at h1
    exact hr h1
  unfold dispatch
  rw [if_neg h0, if_neg hc1, if_neg hc2, hk]

/-- C2 (witness): the spec example, header value "Bearer abc123" on path
"/mcp": the resolved key is "abc123" and the path is unchanged. -/
theorem C2_witness :
    dispatch "/mcp" (some ("Bearer " ++ "abc123")) = MwResult.next "abc123" "/mcp" := by
  have h := C2_bearer_header "/mcp" "abc123" (by decide) (by decide)
  rw [h]
  rfl

/-- C3: an inbound request that is not the healthcheck path, whose
Authorization header yields no non-empty key, and whose path does not
have at least two non-empty segments with the second equal to "mcp", is
rejected with exactly status 401 and body made of the single field
"error" holding the fixed missing-key message; the result is a rejection,
so neither the downstream pipeline nor the search tool is reached. -/
theorem C3_missing_key_401 (path : String) (auth : Option String)
    (h0 : ¬ path = "/healthcheck") (hh : headerKey auth = "")
    (hp : ¬ (2 ≤ (specSegments path).length ∧ (specSegments path).getD 1 "" = "mcp")) :
    dispatch path auth = MwResult.reject 401 [("error", Json.str missingKeyMsg)] := by
  have hc1 : ¬ (headerKey auth = "" ∧ 2 ≤ (pathParts path).length ∧
      (pathParts path).getD 1 "" = "mcp") := by
    rintro ⟨-, hl, hm⟩
    exact hp (codeCond_specCond path hl hm)
  unfold dispatch
  rw [if_neg h0, if_neg hc1, if_pos hh]

/-- C3 (witness): a request to "/search" with no Authorization header is
rejected with 401 and the fixed missing-key body. -/
theorem C3_witness :
    dispatch "/search" none = MwResult.reject 401 [("error", Json.str missingKeyMsg)] :=
  C3_missing_key_401 "/search" none (by decide) rfl (by decide)

/-- C4: in compact mode the search tool removes exactly the top-level
keys search_metadata, search_parameters, search_information, pagination
and serpapi_pagination — one level deep, keeping every other entry
verbatim, so nested occurrences survive and an absent key is no error —
and serializes the remainder as JSON; in particular, on an upstream
response with fields search_metadata, organic_results and
serpapi_pagination, compact mode yields exactly the serialization of the
object holding the single field organic_results. -/
theorem C4_compact_removal :
    (∀ data : List (String × Json),
        removeFields data = data.filter (fun kv => !(fieldsToRemove.contains kv.1))) ∧
    ∀ m r p : Json,
      (search (Ctx.httpKey "key") [] "compact"
          (Upstream.ok
            [("search_metadata", m), ("organic_results", r),
              ("serpapi_pagination", p)])).result
        = ToolResult.str (jsonDumps [("organic_results", r)]) := by
  refine ⟨removeFields_eq_filter, ?_⟩
  intro m r p
  rfl

/-- C5 (counterexample): the top-level key other_pagination_info contains
the substring pagination, so the claim predicts its removal in compact
mode, yet the tool keeps it: on an upstream response holding only that
key, compact mode returns the serialization of the unchanged object, and
that output string still contains other_pagination_info. -/
theorem C5_counterexample :
    strContains "other_pagination_info" "pagination" = true ∧
    (search (Ctx.httpKey "key") [] "compact"
        (Upstream.ok [("other_pagination_info", Json.null)])).result
      = ToolResult.str (jsonDumps [("other_pagination_info", Json.null)]) ∧
    strContains (jsonDumps [("other_pagination_info", Json.null)]) "other_pagination_info"
      = true :=
  ⟨by decide, rfl, by decide⟩

/-- C5 (amended): compact mode removes top-level keys by exact match
against the five listed names only; a key that merely contains the
substring pagination, such as other_pagination_info, is preserved in the
compact output. -/
theorem C5_exact_match_only :
    (∀ data : List (String × Json),
        removeFields data = data.filter (fun kv => !(fieldsToRemove.contains kv.1))) ∧
    removeFields [("other_pagination_info", Json.null)]
      = [("other_pagination_info", Json.null)] :=
  ⟨removeFields_eq_filter, rfl⟩

/-- C6 (code divergence): with mode "complete" and empty parameters, a
request context whose state lacks the api_key attribute — and likewise a
call with no active HTTP request — makes the tool raise, because the
attribute access and the get_http_request call sit outside the try block
(server.py lines 109-113), instead of returning the defensive error
string of line 113; the tool therefore propagates a fault to its caller
in exactly the situations the claim covers. -/
theorem C6_context_raises :
    (search Ctx.httpNoKey [] "complete" (Upstream.ok [])).result = ToolResult.raised ∧
    (search Ctx.noHttp [] "complete" (Upstream.ok [])).result = ToolResult.raised :=
  ⟨rfl, rfl⟩

/-- C7: when the upstream call raises an HTTPError, the tool returns a
string classified by the fault description: containing "Rate limit
exceeded" when the description contains "429"; otherwise containing
"Invalid SerpApi API key" when it contains "401"; otherwise containing
"forbidden" when it contains "403"; otherwise exactly the raw description
prefixed with "Error: ". -/
theorem C7_http_error_classes (k msg : String) (params : List (String × Json)) (mode : String)
    (hk : ¬ k = "") (hm : mode = "complete" ∨ mode = "compact") :
    ∃ s, (search (Ctx.httpKey k) params mode (Upstream.httpError msg)).result
        = ToolResult.str s ∧
      (strContains msg "429" = true → strContains s "Rate limit exceeded" = true) ∧
      (strContains msg "429" = false → strContains msg "401" = true →
        strContains s "Invalid SerpApi API key" = true) ∧
      (strContains msg "429" = false → strContains msg "401" = false →
        strContains msg "403" = true → strContains s "forbidden" = true) ∧
      (strContains msg "429" = false → strContains msg "401" = false →
        strContains msg "403" = false → s = "Error: " ++ msg) := by
  have hmode : ¬ (mode ≠ "complete" ∧ mode ≠ "compact") := by
    rcases hm with h | h <;> simp [h]
  have he : (search (Ctx.httpKey k) params mode (Upstream.httpError msg)).result
      = ToolResult.str (classifyHttpError msg) := by
    rw [search_httpKey_eq k params mode _ hmode, if_neg hk]
    rfl
  refine ⟨classifyHttpError msg, he, ?_, ?_, ?_, ?_⟩
  · intro h1
    unfold classifyHttpError
    rw [if_pos h1]
    decide
  · intro h1 h2
    unfold classifyHttpError
    rw [if_neg (by simp [h1]), if_pos h2]
    decide
  · intro h1 h2 h3
    unfold classifyHttpError
    rw [if_neg (by simp [h1]), if_neg (by simp [h2]), if_pos h3]
    decide
  · intro h1 h2 h3
    unfold classifyHttpError
    rw [if_neg (by simp [h1]), if_neg (by simp [h2]), if_neg (by simp [h3])]

/-- C7 (witness): the classification evaluated on the concrete fault
description "HTTP 429" with key "k" and mode "complete". -/
theorem C7_witness :
    ¬ ("k" : String) = "" ∧
    (("complete" : String) = "complete" ∨ ("complete" : String) = "compact") ∧
    (∃ s, (search (Ctx.httpKey "k") [] "complete" (Upstream.httpError "HTTP 429")).result
        = ToolResult.str s ∧
      (strContains "HTTP 429" "429" = true → strContains s "Rate limit exceeded" = true) ∧
      (strContains "HTTP 429" "429" = false → strContains "HTTP 429" "401" = true →
        strContains s "Invalid SerpApi API key" = true) ∧
      (strContains "HTTP 429" "429" = false → strContains "HTTP 429" "401" = false →
        strContains "HTTP 429" "403" = true → strContains s "forbidden" = true) ∧
      (strContains "HTTP 429" "429" = false → strContains "HTTP 429" "401" = false →
        strContains "HTTP 429" "403" = false → s = "Error: " ++ "HTTP 429")) :=
  ⟨by decide, Or.inl rfl,
    C7_http_error_classes "k" "HTTP 429" [] "complete" (by decide) (Or.inl rfl)⟩

/-- C8: for any mode other than "complete" and "compact", the tool
returns the fixed validation-error string and the run records no
parameters sent upstream — zero upstream calls — whatever the context,
the parameters and the upstream behavior. -/
theorem C8_invalid_mode (ctx : Ctx) (params : List (String × Json)) (mode : String)
    (up : Upstream) (h : mode ≠ "complete" ∧ mode ≠ "compact") :
    search ctx params mode up = ⟨ToolResult.str invalidModeMsg, none⟩ :=
  search_invalid_mode_eq ctx params mode up h

/-- C8 (witness): mode "bogus" returns the validation error with no
upstream call. -/
theorem C8_witness :
    (("bogus" : String) ≠ "complete" ∧ ("bogus" : String) ≠ "compact") ∧
    search Ctx.noHttp [] "bogus" (Upstream.ok []) = ⟨ToolResult.str invalidModeMsg, none⟩ :=
  ⟨by decide, C8_invalid_mode Ctx.noHttp [] "bogus" (Upstream.ok []) (by decide)⟩

/-- C9: the middleware never forwards an empty key — a forwarded request
carries a non-empty key that is either exactly the header-derived key,
or, when the header yields none, exactly the path-derived first segment,
so the two sources are never mixed — and the search tool populates the
api_key entry of the upstream parameters with exactly the stored context
key whenever the caller parameters do not override it. -/
theorem C9_single_key :
    (∀ path auth k p, dispatch path auth = MwResult.next k p →
        ¬ k = "" ∧ (k = headerKey auth ∨
          (headerKey auth = "" ∧ k = (pathParts path).getD 0 ""))) ∧
    (∀ k params mode up sp, (search (Ctx.httpKey k) params mode up).sent = some sp →
        (∀ kv ∈ params, ¬ kv.1 = "api_key") →
        sp.lookup "api_key" = some (Json.str k)) := by
  constructor
  · intro path auth k p h
    unfold dispatch at h
    by_cases h0 : path = "/healthcheck"
    · rw [if_pos h0] at h
      exact MwResult.noConfusion h
    rw [if_neg h0] at h
    by_cases hc : headerKey auth = "" ∧ 2 ≤ (pathParts path).length ∧
        (pathParts path).getD 1 "" = "mcp"
    · rw [if_pos hc] at h
      by_cases hz : (pathParts path).getD 0 "" = ""
      · rw [if_pos hz] at h
        exact MwResult.noConfusion h
      · rw [if_neg hz] at h
        injection h with hk1 hp1
        exact ⟨by rw [← hk1]; exact hz, Or.inr ⟨hc.1, hk1.symm⟩⟩
    · rw [if_neg hc] at h
      by_cases hh : headerKey auth = ""
      · rw [if_pos hh] at h
        exact MwResult.noConfusion h
      · rw [if_neg hh] at h
        injection h with hk1 hp1
        exact ⟨by rw [← hk1]; exact hh, Or.inl hk1.symm⟩
  · intro k params mode up sp hs hp
    by_cases hmode : mode ≠ "complete" ∧ mode ≠ "compact"
    · rw [search_invalid_mode_eq _ _ _ _ hmode] at hs
      simp at hs
    · rw [search_httpKey_eq _ _ _ _ hmode] at hs
      by_cases hk : k = ""
      · rw [if_pos hk] at hs
        simp at hs
      · rw [if_neg hk] at hs
        have hsp : sp = dictMerge (defaultSearchParams k) params := by
          cases up with
          | ok data =>
            simp [searchBody] at hs
            exact hs.symm
          | httpError msg =>
            simp [searchBody] at hs
            exact hs.symm
          | exn msg =>
            simp [searchBody] at hs
            exact hs.symm
        rw [hsp, lookup_dictMerge_ne params _ _ hp]
        rfl

/-- C9 (witness): the path-derived request "/k/mcp" forwards the
non-empty key "k", and the merged upstream parameters for key "k" with
one unrelated caller parameter hold exactly "k" under api_key. -/
theorem C9_witness :
    ¬ ("k" : String) = "" ∧
    (dictMerge (defaultSearchParams "k") [("q", Json.str "coffee")]).lookup "api_key"
      = some (Json.str "k") := by
  constructor
  · exact (C9_single_key.1 "/k/mcp" none "k" "/mcp" rfl).1
  · have hs : (search (Ctx.httpKey "k") [("q", Json.str "coffee")] "complete"
        (Upstream.ok [])).sent
        = some (dictMerge (defaultSearchParams "k") [("q", Json.str "coffee")]) := rfl
    exact C9_single_key.2 "k" [("q", Json.str "coffee")] "complete" (Upstream.ok []) _ hs
      (by decide)

/-- C10: on an upstream response whose top level holds none of the five
removable keys, compact mode returns a string identical to the one
complete mode returns on the same response — both modes serialize the
same object through the same json.dumps model, with the same indentation
and non-ASCII handling. -/
theorem C10_compact_eq_complete (data : List (String × Json)) (k : String)
    (params : List (String × Json)) (hk : ¬ k = "")
    (h : ∀ kv ∈ data, ¬ kv.1 ∈ fieldsToRemove) :
    (search (Ctx.httpKey k) params "compact" (Upstream.ok data)).result
      = (search (Ctx.httpKey k) params "complete" (Upstream.ok data)).result := by
  have hrm : removeFields data = data := by
    rw [removeFields_eq_filter]
    refine List.filter_eq_self.mpr (fun kv hkv => ?_)
    simpa using h kv hkv
  rw [search_httpKey_eq _ _ _ _ (by simp), search_httpKey_eq _ _ _ _ (by simp),
    if_neg hk, if_neg hk]
  show (searchBody k params "compact" (Upstream.ok data)).result
      = (searchBody k params "complete" (Upstream.ok data)).result
  unfold searchBody
  simp [hrm]

/-- C10 (witness): a response holding only organic_results serializes
identically in compact and complete mode. -/
theorem C10_witness :
    ¬ ("key" : String) = "" ∧
    (search (Ctx.httpKey "key") [] "compact"
        (Upstream.ok [("organic_results", Json.null)])).result
      = (search (Ctx.httpKey "key") [] "complete"
          (Upstream.ok [("organic_results", Json.null)])).result :=
  ⟨by decide,
    C10_compact_eq_complete [("organic_results", Json.null)] "key" [] (by decide) (by decide)⟩

end SerpapiMcp
